import Mathlib

/-!
Verification of the Zod + react-hook-form sign-up form.

The repository has two pieces of logic:
* `UserSchema` (types file): a Zod object schema over five fields
  (email, githubUrl, yearsOfExperience, password, confirmPassword)
  with a cross-field `.refine` equating password and confirmPassword.
* `onSubmit` (Form component): posts the data, and on a successful
  response surfaces at most one server-reported field error — the first
  field, in the order of `fieldErrorMapping`, whose entry in the
  response `errors` object is truthy.

We embed both shallowly: JavaScript values seen by the schema become an
inductive `JVal` (with rationals standing for finite JS numbers and an
explicit `nan` constructor), the schema becomes a function into
`Except (List Issue) FormData`, and the submission handler becomes a
function from a modelled server response to the action it performs on
the form error state.
-/

set_option autoImplicit false

namespace ZodForm

/-- The five form field names (`ValidFieldNames` in the types file). -/
inductive ValidFieldNames where
  | email
  | githubUrl
  | yearsOfExperience
  | password
  | confirmPassword
deriving DecidableEq, Repr

/-- A JavaScript value as the Zod schema can receive it from
react-hook-form: absent (`undefined`), a string, a finite number
(modelled as a rational), `NaN` (what `valueAsNumber` yields for
non-numeric input), or a value of any other type. -/
inductive JVal where
  | undef
  | str (s : String)
  | num (q : ℚ)
  | nan
  | other
deriving DecidableEq

/-- The raw object handed to `UserSchema.parse`: one `JVal` per field. -/
structure RawInput where
  email : JVal
  githubUrl : JVal
  yearsOfExperience : JVal
  password : JVal
  confirmPassword : JVal
deriving DecidableEq

/-- The validated record (type `FormData` in the types file). -/
structure FormData where
  email : String
  githubUrl : String
  yearsOfExperience : ℚ
  password : String
  confirmPassword : String
deriving DecidableEq

/-- One Zod issue: the field it is attached to and its message. -/
structure Issue where
  path : ValidFieldNames
  message : String
deriving DecidableEq

/-! ### The Zod email check (`z.string().email()`)

Zod validates emails with the regular expression
`^(?!\.)(?!.*\.\.)([A-Z0-9_'+\-\.]*)[A-Z0-9_+-]@([A-Z0-9][A-Z0-9\-]*\.)+[A-Z]{2,}$`
(case-insensitive).  We implement it directly: split at the first
`@` (both character classes exclude `@`, so a match splits there),
then check the local part and the domain. -/

/-- Split a character list at the first occurrence of `t`, returning
the parts before and after it, or `none` if `t` does not occur. -/
def splitFirst (t : Char) : List Char → Option (List Char × List Char)
  | [] => none
  | c :: rest =>
    if c == t then some ([], rest)
    else (splitFirst t rest).map (fun p => (c :: p.1, p.2))

/-- Characters allowed anywhere in the local part of the email regex:
alphanumerics, underscore, apostrophe, plus, hyphen, dot. -/
def emailLocalChar (c : Char) : Bool :=
  c.isAlphanum || c == '_' || c == Char.ofNat 39 || c == '+' || c == '-' || c == '.'

/-- Characters allowed as the last character of the local part
(no dot, no apostrophe). -/
def emailLocalEndChar (c : Char) : Bool :=
  c.isAlphanum || c == '_' || c == '+' || c == '-'

/-- Holds when the list has no two consecutive dots
(the `(?!.*\.\.)` lookahead). -/
def noDoubleDot : List Char → Bool
  | '.' :: '.' :: _ => false
  | _ :: rest => noDoubleDot rest
  | [] => true

/-- The local part of the email regex: nonempty, does not start with a
dot, no `..`, all characters from the local class, last character from
the restricted end class. -/
def emailLocalOk (l : List Char) : Bool :=
  match l.head?, l.getLast? with
  | some h, some t =>
    (h != '.') && noDoubleDot l && l.all emailLocalChar && emailLocalEndChar t
  | _, _ => false

/-- One domain label before the TLD: `[A-Z0-9][A-Z0-9-]*`. -/
def emailLabelOk : List Char → Bool
  | [] => false
  | c :: rest => c.isAlphanum && rest.all (fun d => d.isAlphanum || d == '-')

/-- The final TLD label: `[A-Z]{2,}`. -/
def emailTldOk (l : List Char) : Bool :=
  decide (2 ≤ l.length) && l.all Char.isAlpha

/-- The domain of the email regex: `([A-Z0-9][A-Z0-9-]*\.)+[A-Z]{2,}`,
characterised via the dot-separated labels. -/
def emailDomainOk (d : List Char) : Bool :=
  let parts := d.splitOn '.'
  match parts with
  | [] => false
  | [_] => false
  | _ => parts.dropLast.all emailLabelOk && emailTldOk (parts.getLastD [])

/-- Zod's email regex as a Boolean check on a string. -/
def zodEmailCheck (s : String) : Bool :=
  match splitFirst '@' s.data with
  | some (l, d) => emailLocalOk l && emailDomainOk d
  | none => false

/-! ### URL validity (`z.string().url()`)

Zod's `.url()` succeeds exactly when the runtime `new URL(input)`
constructor does not throw.  That constructor is part of the JavaScript
runtime, not of this repository; we model it by the shape the WHATWG
parser requires: a scheme (a letter followed by letters, digits, `+`,
`-`, `.`) then `:`; for the special schemes (http, https, ws, wss, ftp,
file) additionally `//` and a nonempty space-free host. -/

/-- Characters allowed in a URL scheme after its first letter. -/
def schemeChar (c : Char) : Bool :=
  c.isAlphanum || c == '+' || c == '-' || c == '.'

/-- A valid scheme: nonempty, starts with a letter, rest `schemeChar`. -/
def schemeOk : List Char → Bool
  | [] => false
  | c :: rest => c.isAlpha && rest.all schemeChar

/-- The WHATWG special schemes, which require an authority. -/
def specialSchemes : List String := ["http", "https", "ws", "wss", "ftp", "file"]

/-- For a special scheme, the part after the colon must be `//` followed
by a nonempty host (up to the next `/`, `?` or `#`) without spaces. -/
def specialRestOk : List Char → Bool
  | '/' :: '/' :: rest =>
    let host := rest.takeWhile (fun c => !(c == '/' || c == '?' || c == '#'))
    !host.isEmpty && host.all (fun c => c != ' ')
  | _ => false

/-- Model of the runtime `new URL(input)` constructor succeeding, as
invoked by `z.string().url()`. -/
def isValidURL (s : String) : Bool :=
  match splitFirst ':' s.data with
  | some (scheme, rest) =>
    schemeOk scheme &&
      (if (String.mk (scheme.map Char.toLower)) ∈ specialSchemes
       then specialRestOk rest
       else true)
  | none => false

/-- JavaScript `String.prototype.includes`, used by
`.includes("github.com", ...)`: substring containment. -/
def hasSubstr (s pat : String) : Bool :=
  decide (pat.data <:+: s.data)

/-! ### The field validators of `UserSchema` -/

/-- Field rule `email: z.string().email()`.  A non-string is a type error (Zod
default messages); a string must pass the email regex, else the default
message `Invalid email` is issued. -/
def vEmail : JVal → Except (List String) String
  | .str s => if zodEmailCheck s then .ok s else .error ["Invalid email"]
  | .undef => .error ["Required"]
  | _ => .error ["Expected string"]

/-- Field rule `githubUrl: z.string().url().includes("github.com", { message:
"Invalid GitHub URL" })`.  Zod runs both string checks and collects
every failing one. -/
def vGithubUrl : JVal → Except (List String) String
  | .str s =>
    let issues :=
      (if isValidURL s then [] else ["Invalid url"]) ++
      (if hasSubstr s "github.com" then [] else ["Invalid GitHub URL"])
    if issues.isEmpty then .ok s else .error issues
  | .undef => .error ["Required"]
  | _ => .error ["Expected string"]

/-- Field rule `yearsOfExperience: z.number({ required_error: "required field",
invalid_type_error: "Years of Experience is required" }).min(1).max(10)`.
`undefined` triggers the required error; any non-number (including
`NaN`, which `valueAsNumber` produces for non-numeric input) triggers
the invalid-type error; a number is range-checked with Zod's default
too-small / too-big messages. -/
def vYears : JVal → Except (List String) ℚ
  | .num q =>
    let issues :=
      (if q < 1 then ["Number must be greater than or equal to 1"] else []) ++
      (if 10 < q then ["Number must be less than or equal to 10"] else [])
    if issues.isEmpty then .ok q else .error issues
  | .undef => .error ["required field"]
  | _ => .error ["Years of Experience is required"]

/-- Field rule `password: z.string().min(8, { message: "Password is too short"
}).max(20, { message: "Password is too long" })`. -/
def vPassword : JVal → Except (List String) String
  | .str s =>
    let issues :=
      (if s.length < 8 then ["Password is too short"] else []) ++
      (if 20 < s.length then ["Password is too long"] else [])
    if issues.isEmpty then .ok s else .error issues
  | .undef => .error ["Required"]
  | _ => .error ["Expected string"]

/-- Field rule `confirmPassword: z.string()`. -/
def vConfirmPassword : JVal → Except (List String) String
  | .str s => .ok s
  | .undef => .error ["Required"]
  | _ => .error ["Expected string"]

/-- Attach a field path to a validator's messages. -/
def exIssues {α : Type} (f : ValidFieldNames) : Except (List String) α → List Issue
  | .ok _ => []
  | .error ms => ms.map (fun m => ⟨f, m⟩)

/-- All issues of the object part of the schema (fields in declaration
order), before the `.refine` step. -/
def fieldIssues (r : RawInput) : List Issue :=
  exIssues .email (vEmail r.email) ++
  exIssues .githubUrl (vGithubUrl r.githubUrl) ++
  exIssues .yearsOfExperience (vYears r.yearsOfExperience) ++
  exIssues .password (vPassword r.password) ++
  exIssues .confirmPassword (vConfirmPassword r.confirmPassword)

/-- Parsing with `UserSchema`: the object schema validates every field; only
when all five succeed does the `.refine((data) => data.password ===
data.confirmPassword, { message: "Passwords do not match", path:
["confirmPassword"] })` step run. -/
def UserSchema_parse (r : RawInput) : Except (List Issue) FormData :=
  match vEmail r.email, vGithubUrl r.githubUrl, vYears r.yearsOfExperience,
        vPassword r.password, vConfirmPassword r.confirmPassword with
  | .ok e, .ok g, .ok y, .ok p, .ok c =>
    if p = c then .ok ⟨e, g, y, p, c⟩
    else .error [⟨.confirmPassword, "Passwords do not match"⟩]
  | _, _, _, _, _ => .error (fieldIssues r)

/-! ### The submission handler (`onSubmit` in the Form component) -/

/-- What `onSubmit` does to the form error state: set one field error
via `setError(field, { type, message })`, set none, or show the generic
`alert`. -/
inductive SubmitResult where
  | fieldError (field : ValidFieldNames) (type : String) (message : String)
  | noFieldError
  | alertFailure (message : String)
deriving DecidableEq

/-- The outcome of `axios.post("/api/form", data)`: a successful
response whose body carries an `errors` object (absent entries are
`none`; a body without an `errors` property destructures to `{}`, i.e.
the all-`none` function), or a thrown transport error. -/
inductive ServerResponse where
  | success (errors : String → Option String)
  | failure

/-- The component constant `fieldErrorMapping`, in insertion order — the
order `Object.keys` enumerates. -/
def fieldErrorMapping : List (String × ValidFieldNames) :=
  [("email", .email), ("githubUrl", .githubUrl),
   ("yearsOfExperience", .yearsOfExperience),
   ("password", .password), ("confirmPassword", .confirmPassword)]

/-- The key list `Object.keys(fieldErrorMapping)`. -/
def fieldKeys : List String := fieldErrorMapping.map Prod.fst

/-- Position of a key in `fieldKeys`. -/
def keyIdx (f : String) : ℕ := fieldKeys.indexOf f

/-- JavaScript truthiness of `errors[field]` for a string-or-absent
entry: an absent entry and the empty string are falsy. -/
def truthy : Option String → Bool
  | none => false
  | some s => s != ""

/-- The search `Object.keys(fieldErrorMapping).find((field) => errors[field])`. -/
def fieldWithError (errors : String → Option String) : Option String :=
  fieldKeys.find? (fun field => truthy (errors field))

/-- The submission handler after the POST resolves: on success, set a
`type: "server"` error on the first mapped field whose `errors` entry is
truthy, if any; on a thrown request, `alert("Submitting form failed!")`. -/
def onSubmit : ServerResponse → SubmitResult
  | .failure => .alertFailure "Submitting form failed!"
  | .success errors =>
    match fieldWithError errors with
    | some field =>
      .fieldError ((fieldErrorMapping.lookup field).getD .email) "server"
        ((errors field).getD "")
    | none => .noFieldError

/-- Holds exactly on the `fieldError` outcome. -/
def isFieldError : SubmitResult → Bool
  | .fieldError _ _ _ => true
  | _ => false

/-! ### Concrete inputs used in the statements below -/

/-- A record whose five fields all pass their individual rules and whose
passwords agree. -/
def matchingInput : RawInput :=
  ⟨.str "test@example.com", .str "https://github.com/samade747", .num 3,
   .str "Secret123", .str "Secret123"⟩

/-- Same record but with a different `confirmPassword`. -/
def mismatchInput : RawInput :=
  ⟨.str "test@example.com", .str "https://github.com/samade747", .num 3,
   .str "Secret123", .str "Different"⟩

/-- A server errors object reporting messages for both email and
password. -/
def serverErrsW : String → Option String := fun k =>
  if k = "email" then some "Email already taken"
  else if k = "password" then some "Password too weak"
  else none

/-- A server errors object whose email entry is the falsy empty string
and whose githubUrl entry is truthy. -/
def errsFalsyW : String → Option String := fun k =>
  if k = "email" then some ""
  else if k = "githubUrl" then some "Bad URL"
  else none

/-! ### Helper lemmas -/

theorem splitFirst_eq_none (t : Char) :
    ∀ cs : List Char, t ∉ cs → splitFirst t cs = none := by
  intro cs h
  induction cs with
  | nil => rfl
  | cons c rest ih =>
    simp only [List.mem_cons, not_or] at h
    have hc : (c == t) = false := by
      simp [beq_eq_false_iff_ne]
      exact fun e => h.1 e.symm
    simp [splitFirst, hc, ih h.2]

theorem zodEmailCheck_false_of_no_at (s : String) (h : '@' ∉ s.data) :
    zodEmailCheck s = false := by
  unfold zodEmailCheck
  rw [splitFirst_eq_none '@' s.data h]

theorem truthy_some (o : Option String) (h : truthy o = true) :
    ∃ m, o = some m ∧ m ≠ "" := by
  cases o with
  | none => simp [truthy] at h
  | some s =>
    refine ⟨s, rfl, ?_⟩
    simpa [truthy] using h

/-- The function `find?` returns the first element satisfying the predicate: it
satisfies it, sits no later than any given satisfying element, and every
strictly earlier element fails the predicate. -/
theorem find?_first {α : Type} [DecidableEq α] (p : α → Bool) :
    ∀ (l : List α) (a : α), a ∈ l → p a = true →
      ∃ b, l.find? p = some b ∧ p b = true ∧
        l.indexOf b ≤ l.indexOf a ∧
        ∀ c ∈ l, l.indexOf c < l.indexOf b → p c = false := by
  intro l
  induction l with
  | nil => intro a ha; exact absurd ha (List.not_mem_nil a)
  | cons x xs ih =>
    intro a ha hp
    by_cases hx : p x = true
    · refine ⟨x, by rw [List.find?_cons_of_pos _ hx], hx, ?_, ?_⟩
      · rw [List.indexOf_cons_self]; exact Nat.zero_le _
      · intro c _ hc
        rw [List.indexOf_cons_self] at hc
        exact absurd hc (Nat.not_lt_zero _)
    · have hxf : p x = false := by simpa using hx
      have hax : a ≠ x := fun e => hx (e ▸ hp)
      have ha' : a ∈ xs := by
        rcases List.mem_cons.mp ha with h | h
        · exact absurd h hax
        · exact h
      obtain ⟨b, hfind, hpb, hle, hmin⟩ := ih a ha' hp
      have hbx : b ≠ x := fun e => hx (e ▸ hpb)
      refine ⟨b, ?_, hpb, ?_, ?_⟩
      · rw [List.find?_cons_of_neg _ (by simp [hxf]), hfind]
      · rw [List.indexOf_cons_ne _ hbx.symm, List.indexOf_cons_ne _ hax.symm]
        exact Nat.succ_le_succ hle
      · intro c hc hlt
        by_cases hcx : c = x
        · exact hcx ▸ hxf
        · have hc' : c ∈ xs := by
            rcases List.mem_cons.mp hc with h | h
            · exact absurd h hcx
            · exact h
          rw [List.indexOf_cons_ne _ (fun e : x = c => hcx e.symm),
              List.indexOf_cons_ne _ hbx.symm] at hlt
          exact hmin c hc' (Nat.lt_of_succ_lt_succ hlt)

/-- The result of `find?` is determined by the predicate on the list. -/
theorem find?_congr {α : Type} (p q : α → Bool) :
    ∀ l : List α, (∀ a ∈ l, p a = q a) → l.find? p = l.find? q := by
  intro l
  induction l with
  | nil => intro _; rfl
  | cons x xs ih =>
    intro h
    have hx := h x (List.mem_cons_self x xs)
    by_cases hp : p x = true
    · rw [List.find?_cons_of_pos _ hp, List.find?_cons_of_pos _ (hx ▸ hp)]
    · have hpf : p x = false := by simpa using hp
      rw [List.find?_cons_of_neg _ (by simp [hpf]),
          List.find?_cons_of_neg _ (by simp [hx ▸ hpf])]
      exact ih (fun a ha => h a (List.mem_cons_of_mem x ha))

/-- When some field fails its own rule, the parse result is exactly the
collected field issues — the `.refine` step never runs. -/
theorem parse_error_of_fieldIssues (r : RawInput) (h : fieldIssues r ≠ []) :
    UserSchema_parse r = .error (fieldIssues r) := by
  unfold UserSchema_parse
  cases he : vEmail r.email <;> cases hg : vGithubUrl r.githubUrl <;>
    cases hy : vYears r.yearsOfExperience <;> cases hp : vPassword r.password <;>
      cases hc : vConfirmPassword r.confirmPassword <;>
    simp_all [fieldIssues, exIssues]

/-! ### Claim theorems -/

/-- C2 counterexample: the claim says every non-integer numeric value is
rejected, but `yearsOfExperience` is validated by
`z.number(...).min(1).max(10)` with no integrality check, so the
non-integer 11/2 = 5.5 is accepted (its reduced denominator is 2, not 1,
so it is not an integer). -/
theorem claim_C2_counterexample :
    vYears (JVal.num (11 / 2)) = .ok (11 / 2) ∧
      ¬ ∃ n : ℤ, ((11 : ℚ) / 2) = (n : ℚ) := by
  constructor
  · norm_num [vYears]
  · rintro ⟨n, hn⟩
    have h2 : ((11 : ℚ) / 2).den = 2 := by norm_num
    rw [hn, Rat.den_intCast] at h2
    exact absurd h2 (by norm_num)

/-- C2 (amended): validation of `yearsOfExperience` accepts a value
exactly when it is a number in the inclusive range [1, 10]; integrality
is not checked, so the non-integer 5.5 is accepted. -/
theorem claim_C2_years_range :
    (∀ q : ℚ, vYears (JVal.num q) = .ok q ↔ 1 ≤ q ∧ q ≤ 10) ∧
      (∀ (v : JVal) (q : ℚ), vYears v = .ok q → v = JVal.num q) ∧
      vYears (JVal.num (11 / 2)) = .ok (11 / 2) := by
  refine ⟨?_, ?_, by norm_num [vYears]⟩
  · intro q
    unfold vYears
    by_cases h1 : q < 1
    · simp only [h1, if_true]
      constructor
      · intro h; simp at h
      · rintro ⟨ha, _⟩; linarith
    · by_cases h2 : 10 < q
      · simp only [h1, if_false, h2, if_true]
        constructor
        · intro h; simp at h
        · rintro ⟨_, hb⟩; linarith
      · simp only [h1, if_false, h2]
        simp [not_lt.mp h1, not_lt.mp h2]
  · intro v q h
    cases v with
    | num q' =>
      simp only [vYears] at h
      split_ifs at h <;> first
        | (injection h with h; rw [h])
        | simp at h
    | undef => simp [vYears] at h
    | str s => simp [vYears] at h
    | nan => simp [vYears] at h
    | other => simp [vYears] at h

/-- C2 witness for the amended theorem: the number 3 is accepted and is
the parsed value of the numeric input 3. -/
theorem claim_C2_years_range_witness :
    vYears (JVal.num 3) = .ok 3 ∧ JVal.num (3 : ℚ) = JVal.num 3 :=
  ⟨(claim_C2_years_range.1 3).mpr (by norm_num),
   claim_C2_years_range.2.1 (JVal.num 3) 3 rfl⟩

/-- C3: for `yearsOfExperience`, 0 and 11 fail the range checks while 1
and 10 pass; an absent value fails with "required field"; a present
non-numeric value (a string, or the NaN that `valueAsNumber` yields)
fails with "Years of Experience is required"; the two messages differ. -/
theorem claim_C3_years_messages :
    vYears JVal.undef = .error ["required field"] ∧
    vYears (JVal.str "abc") = .error ["Years of Experience is required"] ∧
    vYears JVal.nan = .error ["Years of Experience is required"] ∧
    vYears (JVal.num 0) = .error ["Number must be greater than or equal to 1"] ∧
    vYears (JVal.num 11) = .error ["Number must be less than or equal to 10"] ∧
    vYears (JVal.num 1) = .ok 1 ∧
    vYears (JVal.num 10) = .ok 10 ∧
    "required field" ≠ "Years of Experience is required" := by
  refine ⟨rfl, rfl, rfl, rfl, rfl, rfl, rfl, ?_⟩
  decide

/-- C4: password validation passes exactly when the length is between 8
and 20 inclusive, a shorter password fails with the too-short message
and a longer one with the too-long message. -/
theorem claim_C4_password_length (s : String) :
    vPassword (JVal.str s) =
      (if s.length < 8 then .error ["Password is too short"]
       else if 20 < s.length then .error ["Password is too long"]
       else .ok s) := by
  unfold vPassword
  by_cases h1 : s.length < 8
  · have h2 : ¬ 20 < s.length := by omega
    simp [h1, h2]
  · by_cases h2 : 20 < s.length <;> simp [h1, h2]

theorem vEmail_error_ne_nil (v : JVal) (ms : List String)
    (h : vEmail v = .error ms) : ms ≠ [] := by
  intro e
  subst e
  cases v <;> simp only [vEmail] at h <;> first
    | simp at h
    | (split_ifs at h <;> simp at h)

theorem vGithubUrl_error_ne_nil (v : JVal) (ms : List String)
    (h : vGithubUrl v = .error ms) : ms ≠ [] := by
  intro e
  subst e
  cases v with
  | str s =>
    by_cases h1 : isValidURL s = true <;>
      by_cases h2 : hasSubstr s "github.com" = true <;>
      simp [vGithubUrl, h1, h2] at h
  | undef => simp [vGithubUrl] at h
  | num q => simp [vGithubUrl] at h
  | nan => simp [vGithubUrl] at h
  | other => simp [vGithubUrl] at h

theorem vYears_error_ne_nil (v : JVal) (ms : List String)
    (h : vYears v = .error ms) : ms ≠ [] := by
  intro e
  subst e
  cases v with
  | num q =>
    by_cases h1 : q < 1 <;> by_cases h2 : 10 < q <;>
      simp [vYears, h1, h2] at h
  | undef => simp [vYears] at h
  | str s => simp [vYears] at h
  | nan => simp [vYears] at h
  | other => simp [vYears] at h

theorem vPassword_error_ne_nil (v : JVal) (ms : List String)
    (h : vPassword v = .error ms) : ms ≠ [] := by
  intro e
  subst e
  cases v with
  | str s =>
    by_cases h1 : s.length < 8 <;> by_cases h2 : 20 < s.length <;>
      simp [vPassword, h1, h2] at h
  | undef => simp [vPassword] at h
  | num q => simp [vPassword] at h
  | nan => simp [vPassword] at h
  | other => simp [vPassword] at h

theorem vConfirmPassword_error_ne_nil (v : JVal) (ms : List String)
    (h : vConfirmPassword v = .error ms) : ms ≠ [] := by
  intro e
  subst e
  cases v <;> simp only [vConfirmPassword] at h <;> simp at h

/-- A successful password validation returns the input string unchanged. -/
theorem vPassword_ok_inv (v : JVal) (s : String)
    (h : vPassword v = .ok s) : v = JVal.str s := by
  cases v with
  | str t =>
    simp only [vPassword] at h
    split_ifs at h <;> first
      | (injection h with h; rw [h])
      | simp at h
  | undef => simp [vPassword] at h
  | num q => simp [vPassword] at h
  | nan => simp [vPassword] at h
  | other => simp [vPassword] at h

/-- A successful confirm-password validation returns the input string. -/
theorem vConfirmPassword_ok_inv (v : JVal) (s : String)
    (h : vConfirmPassword v = .ok s) : v = JVal.str s := by
  cases v with
  | str t => injection h with h; rw [h]
  | undef => simp [vConfirmPassword] at h
  | num q => simp [vConfirmPassword] at h
  | nan => simp [vConfirmPassword] at h
  | other => simp [vConfirmPassword] at h

/-- When no field issue exists, every field validator succeeded. -/
theorem validators_ok_of_fieldIssues_nil (r : RawInput)
    (h : fieldIssues r = []) :
    (∃ e, vEmail r.email = .ok e) ∧ (∃ g, vGithubUrl r.githubUrl = .ok g) ∧
      (∃ y, vYears r.yearsOfExperience = .ok y) ∧
      (∃ p, vPassword r.password = .ok p) ∧
      (∃ c, vConfirmPassword r.confirmPassword = .ok c) := by
  cases he : vEmail r.email <;> cases hg : vGithubUrl r.githubUrl <;>
    cases hy : vYears r.yearsOfExperience <;> cases hp : vPassword r.password <;>
      cases hc : vConfirmPassword r.confirmPassword <;>
    simp_all [fieldIssues, exIssues] <;>
    first
      | exact vEmail_error_ne_nil _ _ he (by simp_all)
      | exact vGithubUrl_error_ne_nil _ _ hg (by simp_all)
      | exact vYears_error_ne_nil _ _ hy (by simp_all)
      | exact vPassword_error_ne_nil _ _ hp (by simp_all)
      | exact vConfirmPassword_error_ne_nil _ _ hc (by simp_all)

/-- C5: the password/confirmPassword equality check of the `.refine`
step runs only on records whose five fields all pass their individual
rules, and its failure is attached to `confirmPassword`; on the example
record with password "Secret123" and confirmPassword "Different" the
parse fails with exactly that one issue, and with identical passwords it
succeeds. -/
theorem claim_C5_refine_confirm :
    (∀ r : RawInput, fieldIssues r ≠ [] →
      UserSchema_parse r = .error (fieldIssues r)) ∧
    (∀ (r : RawInput) (p c : String), fieldIssues r = [] →
      r.password = .str p → r.confirmPassword = .str c → p ≠ c →
      UserSchema_parse r =
        .error [⟨.confirmPassword, "Passwords do not match"⟩]) ∧
    UserSchema_parse mismatchInput =
      .error [⟨.confirmPassword, "Passwords do not match"⟩] ∧
    UserSchema_parse matchingInput =
      .ok ⟨"test@example.com", "https://github.com/samade747", 3,
           "Secret123", "Secret123"⟩ := by
  refine ⟨parse_error_of_fieldIssues, ?_, rfl, rfl⟩
  intro r p c hnil hp hc hne
  obtain ⟨⟨e, he⟩, ⟨g, hg⟩, ⟨y, hy⟩, ⟨pv, hpv⟩, ⟨cv, hcv⟩⟩ :=
    validators_ok_of_fieldIssues_nil r hnil
  have hpp : pv = p := by
    have := vPassword_ok_inv _ _ hpv
    rw [hp] at this
    injection this with this
    exact this.symm
  have hcc : cv = c := by
    have := vConfirmPassword_ok_inv _ _ hcv
    rw [hc] at this
    injection this with this
    exact this.symm
  unfold UserSchema_parse
  rw [he, hg, hy, hpv, hcv]
  simp only [hpp, hcc]
  rw [if_neg hne]

/-- C5 witness: applied to a record with a failing password field (the
refine step is skipped), and to the mismatching example record. -/
theorem claim_C5_refine_confirm_witness :
    UserSchema_parse
        ⟨.str "test@example.com", .str "https://github.com/samade747",
         .num 3, .str "short", .str "short"⟩ =
      .error (fieldIssues
        ⟨.str "test@example.com", .str "https://github.com/samade747",
         .num 3, .str "short", .str "short"⟩) ∧
    UserSchema_parse mismatchInput =
      .error [⟨.confirmPassword, "Passwords do not match"⟩] :=
  ⟨claim_C5_refine_confirm.1 _ (by decide),
   claim_C5_refine_confirm.2.2.1⟩

/-- C6: a `githubUrl` string is accepted exactly when it is a valid URL
(per the modelled runtime URL constructor) containing the substring
"github.com"; a valid URL lacking that substring fails with exactly the
message "Invalid GitHub URL". -/
theorem claim_C6_github_url (s : String) :
    (vGithubUrl (JVal.str s) = .ok s ↔
      (isValidURL s = true ∧ hasSubstr s "github.com" = true)) ∧
    (isValidURL s = true → hasSubstr s "github.com" = false →
      vGithubUrl (JVal.str s) = .error ["Invalid GitHub URL"]) := by
  unfold vGithubUrl
  by_cases h1 : isValidURL s = true <;>
    by_cases h2 : hasSubstr s "github.com" = true <;>
    simp [h1, h2]

/-- C6 witness: "https://example.com" is a valid URL without
"github.com" and fails with exactly the includes message. -/
theorem claim_C6_github_url_witness :
    vGithubUrl (JVal.str "https://example.com") =
      .error ["Invalid GitHub URL"] :=
  (claim_C6_github_url "https://example.com").2 (by rfl) (by rfl)

/-- C7: an email string without an `@` fails the email check, so parsing
any record carrying it fails and the issue list carries the
email-specific message "Invalid email" on the email field. -/
theorem claim_C7_email_at (r : RawInput) (s : String)
    (hs : r.email = JVal.str s) (hat : '@' ∉ s.data) :
    Issue.mk .email "Invalid email" ∈ fieldIssues r ∧
      UserSchema_parse r = .error (fieldIssues r) := by
  have hchk : zodEmailCheck s = false := zodEmailCheck_false_of_no_at s hat
  have hv : vEmail r.email = .error ["Invalid email"] := by
    rw [hs]; simp [vEmail, hchk]
  have hmem : Issue.mk .email "Invalid email" ∈ fieldIssues r := by
    unfold fieldIssues
    rw [hv]
    simp [exIssues]
  exact ⟨hmem, parse_error_of_fieldIssues r (List.ne_nil_of_mem hmem)⟩

/-- C7 witness: the record whose email is "noatsign". -/
theorem claim_C7_email_at_witness :
    Issue.mk .email "Invalid email" ∈ fieldIssues
        ⟨.str "noatsign", .str "https://github.com/samade747", .num 3,
         .str "Secret123", .str "Secret123"⟩ ∧
      UserSchema_parse
          ⟨.str "noatsign", .str "https://github.com/samade747", .num 3,
           .str "Secret123", .str "Secret123"⟩ =
        .error (fieldIssues
          ⟨.str "noatsign", .str "https://github.com/samade747", .num 3,
           .str "Secret123", .str "Secret123"⟩) :=
  claim_C7_email_at _ "noatsign" rfl (by decide)

/-- C1: when a successful response carries truthy error entries for two
distinct known fields, the handler sets exactly one field error: on the
order-first field with a truthy entry, with type "server" and the
server-supplied message, and every field strictly earlier in the order
has no truthy entry; the later of the two given fields is not the one
surfaced. -/
theorem claim_C1_first_server_error (errors : String → Option String)
    (f g : String) (hf : f ∈ fieldKeys) (hg : g ∈ fieldKeys)
    (hord : keyIdx f < keyIdx g)
    (htf : truthy (errors f) = true) (htg : truthy (errors g) = true) :
    ∃ h m, fieldWithError errors = some h ∧
      truthy (errors h) = true ∧ errors h = some m ∧
      keyIdx h ≤ keyIdx f ∧
      (∀ k ∈ fieldKeys, keyIdx k < keyIdx h → truthy (errors k) = false) ∧
      onSubmit (.success errors) =
        .fieldError ((fieldErrorMapping.lookup h).getD .email) "server" m ∧
      h ≠ g := by
  obtain ⟨b, hfind, hpb, hle, hmin⟩ :=
    find?_first (fun k => truthy (errors k)) fieldKeys f hf htf
  obtain ⟨m, hm, hmne⟩ := truthy_some (errors b) hpb
  refine ⟨b, m, hfind, hpb, hm, hle, hmin, ?_, ?_⟩
  · have hfe : fieldWithError errors = some b := hfind
    simp only [onSubmit]
    rw [hfe]
    simp [hm]
  · intro e
    subst e
    have hge : keyIdx b ≤ keyIdx f := hle
    omega

/-- C1 witness: a response reporting errors for both email and password
surfaces only the email error. -/
theorem claim_C1_first_server_error_witness :
    ∃ h m, fieldWithError serverErrsW = some h ∧
      truthy (serverErrsW h) = true ∧ serverErrsW h = some m ∧
      keyIdx h ≤ keyIdx "email" ∧
      (∀ k ∈ fieldKeys, keyIdx k < keyIdx h → truthy (serverErrsW k) = false) ∧
      onSubmit (.success serverErrsW) =
        .fieldError ((fieldErrorMapping.lookup h).getD .email) "server" m ∧
      h ≠ "password" :=
  claim_C1_first_server_error serverErrsW "email" "password"
    (by decide) (by decide) (by decide) (by decide) (by decide)

/-- C8: a thrown request produces exactly the generic alert and sets no
field-level error. -/
theorem claim_C8_transport_failure :
    onSubmit ServerResponse.failure = .alertFailure "Submitting form failed!" ∧
      isFieldError (onSubmit ServerResponse.failure) = false :=
  ⟨rfl, rfl⟩

/-- C9: a successful response whose errors object has no entry for any
of the five known field names (in particular a body with no errors
property, which destructures to the empty object) sets no field error. -/
theorem claim_C9_no_server_errors (errors : String → Option String)
    (h : ∀ k ∈ fieldKeys, errors k = none) :
    onSubmit (.success errors) = .noFieldError := by
  have hfind : fieldWithError errors = none := by
    unfold fieldWithError
    rw [List.find?_eq_none]
    intro k hk
    rw [h k hk]
    simp [truthy]
  simp only [onSubmit]
  rw [hfind]

/-- C9 witness: the all-absent errors object. -/
theorem claim_C9_no_server_errors_witness :
    onSubmit (.success (fun _ => none)) = .noFieldError :=
  claim_C9_no_server_errors (fun _ => none) (fun _ _ => rfl)

/-- C10: server error entries are tested by truthiness, not key
presence: an entry that is the empty string is falsy, and the handler
behaves exactly as if that entry were absent, so the first field with a
truthy value, if any, is the one surfaced. -/
theorem claim_C10_falsy_entry_skipped (errors : String → Option String)
    (k : String) (hk : errors k = some "") :
    truthy (errors k) = false ∧
      onSubmit (.success errors) =
        onSubmit (.success (fun x => if x = k then none else errors x)) := by
  have ht : truthy (errors k) = false := by rw [hk]; rfl
  refine ⟨ht, ?_⟩
  have hcong : fieldWithError errors =
      fieldWithError (fun x => if x = k then none else errors x) := by
    unfold fieldWithError
    apply find?_congr
    intro a _
    by_cases hak : a = k
    · subst hak
      simp [hk, truthy]
    · simp [hak]
  simp only [onSubmit]
  rw [hcong]
  cases hco : fieldWithError (fun x => if x = k then none else errors x) with
  | none => rfl
  | some fld =>
    have hpt : truthy (if fld = k then none else errors fld) = true := by
      have h2 := hco
      unfold fieldWithError at h2
      simpa using List.find?_some h2
    have hne : fld ≠ k := by
      intro e
      rw [if_pos e] at hpt
      simp [truthy] at hpt
    simp [if_neg hne]

/-- C10 witness: email carries the falsy empty string, githubUrl a
truthy message; the empty entry is skipped. -/
theorem claim_C10_falsy_entry_skipped_witness :
    truthy (errsFalsyW "email") = false ∧
      onSubmit (.success errsFalsyW) =
        onSubmit (.success (fun x => if x = "email" then none
          else errsFalsyW x)) :=
  claim_C10_falsy_entry_skipped errsFalsyW "email" (by decide)

end ZodForm
